import Mathlib

/-!
poly_factory: a self-registering polymorphic factory.

A shallow embedding of `src/poly_factory.cpp`.

* Template parameters become type parameters; a parameter pack `Args...` is one type
  `Args` (the tuple of the arguments).
* Objects live in a store, a list of objects whose positions are the addresses. A
  `std::unique_ptr<T>` is `none`, the null pointer, or `some a`, the owner of the object at
  address `a`. Allocation takes the first unused address; running out of memory is left to
  the allocator and is not modelled.
* A function pointer is a value of `func_type`. What a call through it does is given by the
  program: the lambda of `create<T>` runs `std::make_unique<T>`, and the bodies of all other
  functions and of the constructors are a parameter, `program_text`. Such code may return,
  throw, or have undefined behaviour; it may change the object store; and it may call
  `simple_storage::add`. It cannot reach the map in any other way, because `data()` is
  private, and it can learn about the map only by looking keys up.
* The function-local static `s` of `simple_storage::data()` is passed explicitly, together
  with the object store, as a `world`.
-/

namespace PolyFactory

/-! ## Library pieces the source builds on -/

/-- Exceptions that can travel through the mechanism. `out_of_range` is `std::out_of_range`,
which `std::unordered_map::at` throws; the specification calls it the NotFound condition. The
other two stand for what the code behind a function pointer may throw. -/
inductive exception where
  | out_of_range
  | runtime_error
  | bad_alloc
  deriving DecidableEq, Repr

/-- How a call ends: it returns a value, it throws, or its behaviour is undefined (a null
function pointer is called, a null `unique_ptr` is dereferenced). After `undefined` nothing
is known of the program. -/
inductive outcome (α : Type) where
  | returns (value : α)
  | throws (e : exception)
  | undefined
  deriving DecidableEq, Repr

/-- Addresses of objects. -/
abbrev address := Nat

/-- The objects of one class hierarchy that are alive, by address. -/
abbrev object_store (Base : Type) := List Base

/-- Model of a `new` expression once the object is constructed: the object gets the first
unused address. -/
def object_store.allocate {Base : Type} (heap : object_store Base) (obj : Base) :
    address × object_store Base :=
  (heap.length, heap ++ [obj])

/-- Model of `std::unique_ptr<T>`: null, or the owner of the object at an address. -/
abbrev unique_ptr (_T : Type) := Option address

/-- First value stored under key `k` in a list of entries. -/
def lookup {key ft : Type} [DecidableEq key] (k : key) : List (key × ft) → Option ft
  | [] => none
  | e :: rest => if e.1 = k then some e.2 else lookup k rest

/-- Model of `std::unordered_map<key, ft>`: finitely many entries, no key twice. The order of
the list is the order of insertion, newest first; no operation of the source observes it. -/
structure unordered_map (key ft : Type) where
  entries : List (key × ft)
  nodup : (entries.map Prod.fst).Nodup

namespace unordered_map

variable {key ft : Type}

/-- A default-constructed map. -/
def empty : unordered_map key ft := ⟨[], List.nodup_nil⟩

/-- The keys that have an entry. -/
def keys (m : unordered_map key ft) : List key := m.entries.map Prod.fst

/-- Model of `find`: the mapped value of `k`, if there is one. -/
def find [DecidableEq key] (m : unordered_map key ft) (k : key) : Option ft :=
  lookup k m.entries

/-- Model of `count`: the number of entries whose key is `k`. -/
def count [DecidableEq key] (m : unordered_map key ft) (k : key) : Nat :=
  (m.entries.filter (fun e => decide (e.1 = k))).length

/-- Model of `std::unordered_map::at`: the mapped value, or `std::out_of_range` when the key
is absent. The map is not modified. -/
def «at» [DecidableEq key] (m : unordered_map key ft) (k : key) : outcome ft :=
  match m.find k with
  | some f => outcome.returns f
  | none => outcome.throws exception.out_of_range

/-- Model of `emplace(k, f)`: a new entry is inserted only if the map has no entry with key
`k`; otherwise the map is left as it is. (The returned iterator and flag are dropped, as the
caller `simple_storage::add` drops them.) -/
def emplace [DecidableEq key] (m : unordered_map key ft) (k : key) (f : ft) :
    unordered_map key ft :=
  if h : k ∈ m.keys then m
  else ⟨(k, f) :: m.entries, by
    rw [List.map_cons, List.nodup_cons]
    exact ⟨h, m.nodup⟩⟩

end unordered_map

/-- External `abi::__cxa_demangle` seen through `demangle`: `some res` is a call that set
`status` to 0 and returned the buffer `res`, `none` is any other status. -/
abbrev cxa_demangler := String → Option String

/-- Model of `demangle`: the demangled name when `status == 0`, else the name itself. -/
def demangle (cxa_demangle : cxa_demangler) (name : String) : String :=
  match cxa_demangle name with
  | some res => res
  | none => name

/-! ## function_ptr_factory -/

/-- A class `T` used as the template argument of `create<T>` or `register_derived<T>`,
identified by the string `typeid(T).name()`. What its constructor does is part of the
`program_text`. -/
structure derived_class where
  typeid_name : String
  deriving DecidableEq, Repr

/-- Values of `func_type`, the type `return_type (*)(Args...)`. -/
inductive func_type where
  /-- The null function pointer. -/
  | nullptr
  /-- The function that the lambda in `create<T>` converts to. -/
  | create_lambda (T : derived_class)
  /-- Any other function of this type that the program defines, by number. -/
  | function (id : Nat)
  deriving DecidableEq, Repr

/-- Model of `function_ptr_factory<Rt, Args...>`: a wrapper around one function pointer. The
constructor `function_ptr_factory(func_type)` is the structure constructor; it accepts every
function pointer. -/
structure function_ptr_factory where
  m_func_ptr : func_type
  deriving DecidableEq, Repr

/-- State of `simple_storage<key, ft>`: the function-local static map `s` of `data()`. -/
abbrev simple_storage (key : Type) := unordered_map key function_ptr_factory

/-- What running code written outside the mechanism can see of the map: the result of looking
a key up. -/
abbrev registry_view (key : Type) := key → Option function_ptr_factory

/-- What running a function body or a constructor does: the calls `add(k, f)` it makes, in
order; the object store it leaves; and how it ends. -/
structure effect (key Base α : Type) where
  adds : List (key × function_ptr_factory)
  heap : object_store Base
  result : outcome α

/-- The code of the program that the mechanism calls but does not contain: `ctor T args` is
the constructor `T(args...)`, which returns the constructed object seen as a `Base`, and
`function id args` is the body of the function numbered `id`. Both run against the map as
they can observe it and the object store. -/
structure program_text (key Base Args : Type) where
  ctor : derived_class → Args → registry_view key → object_store Base → effect key Base Base
  function : Nat → Args → registry_view key → object_store Base →
    effect key Base (unique_ptr Base)

/-- Model of `std::make_unique<T>(args...)` converted to `std::unique_ptr<Base>`: run the
constructor; if it returns, the new object gets a fresh address and the pointer owns it; if
it does not return, there is no object. -/
def make_unique {key Base Args : Type} (P : program_text key Base Args) (T : derived_class)
    (args : Args) (view : registry_view key) (heap : object_store Base) :
    effect key Base (unique_ptr Base) :=
  let e := P.ctor T args view heap
  match e.result with
  | outcome.returns obj => ⟨e.adds, (e.heap.allocate obj).2, outcome.returns (some (e.heap.allocate obj).1)⟩
  | outcome.throws ex => ⟨e.adds, e.heap, outcome.throws ex⟩
  | outcome.undefined => ⟨e.adds, e.heap, outcome.undefined⟩

/-- What a call `func_ptr(args...)` does. The lambda of `create<T>` is
`[](Args... args) { return std::make_unique<T>(args...); }`. -/
def func_type.invoke {key Base Args : Type} (P : program_text key Base Args) :
    func_type → Args → registry_view key → object_store Base →
    effect key Base (unique_ptr Base)
  | func_type.nullptr, _, _, heap => ⟨[], heap, outcome.undefined⟩
  | func_type.create_lambda T, args, view, heap => make_unique P T args view heap
  | func_type.function id, args, view, heap => P.function id args view heap

/-- The program state the mechanism works on: the object store and the static map. -/
structure world (key Base : Type) where
  heap : object_store Base
  data : simple_storage key

namespace simple_storage

variable {key Base Args : Type} [DecidableEq key]

/-- The static map as `data()` creates it on first use. -/
def initial : simple_storage key := unordered_map.empty

/-- Model of `simple_storage::add`: `data().emplace(k, f)`. -/
def add (k : key) (f : function_ptr_factory) (s : simple_storage key) : simple_storage key :=
  s.emplace k f

end simple_storage

/-- The map after the calls `add(k, f)` for the pairs of `l`, from left to right. -/
def add_all {key : Type} [DecidableEq key] (l : List (key × function_ptr_factory))
    (s : simple_storage key) : simple_storage key :=
  l.foldl (fun s e => simple_storage.add e.1 e.2 s) s

namespace function_ptr_factory

variable {key Base Args : Type} [DecidableEq key]

/-- Model of `create<T>()`: the factory around the function the lambda converts to. -/
def create (T : derived_class) : function_ptr_factory :=
  ⟨func_type.create_lambda T⟩

/-- Model of `operator()`: `m_func_ptr(ts...)`. The call ends as the function ends; the world
afterwards has the object store the function leaves and the map with the function's calls of
`add` applied. -/
def call (P : program_text key Base Args) (self : function_ptr_factory) (ts : Args)
    (w : world key Base) : outcome (unique_ptr Base) × world key Base :=
  let e := self.m_func_ptr.invoke P ts w.data.find w.heap
  (e.result, ⟨e.heap, add_all e.adds w.data⟩)

end function_ptr_factory

/-! ## simple_storage -/

namespace simple_storage

variable {key Base Args : Type} [DecidableEq key]

/-- Model of `simple_storage::make`: `data().at(k)(args...)`. If `at` throws, the exception
leaves `make` and nothing has happened; otherwise the factory is called. -/
def make (P : program_text key Base Args) (k : key) (args : Args) (w : world key Base) :
    outcome (unique_ptr Base) × world key Base :=
  match w.data.«at» k with
  | outcome.returns f => f.call P args w
  | outcome.throws e => (outcome.throws e, w)
  | outcome.undefined => (outcome.undefined, w)

end simple_storage

/-! ## rtti_registration and basic_poly_factory -/

namespace rtti_registration

/-- Model of `rtti_registration<storage_type>::register_derived<derived>()`: the key is the
demangled type name, the factory is `create<derived>()`, the entry is added, and the call
returns `true`. No constructor and no stored function runs. -/
def register_derived (cxa_demangle : cxa_demangler) (derived : derived_class)
    (s : simple_storage String) : Bool × simple_storage String :=
  let name := demangle cxa_demangle derived.typeid_name
  let factory := function_ptr_factory.create derived
  (true, simple_storage.add name factory s)

end rtti_registration

namespace basic_poly_factory

variable {Base Args : Type}

/-- Model of `basic_poly_factory::make`: forwards to `storage::make`. -/
def make (P : program_text String Base Args) (k : String) (args : Args)
    (w : world String Base) : outcome (unique_ptr Base) × world String Base :=
  simple_storage.make P k args w

/-- Model of `Registrar<T, B>::registerT`: forwards to the registration policy. It is the
initialiser of the static member `registered`. -/
def registerT (cxa_demangle : cxa_demangler) (T : derived_class) (s : simple_storage String) :
    Bool × simple_storage String :=
  rtti_registration.register_derived cxa_demangle T s

end basic_poly_factory

/-! ## The classes of the example program -/

/-- Model of `class Dog`: its only data member. `int` values are only stored and printed,
never computed with, so `Int` stands for them. -/
structure Dog where
  m_x : Int
  deriving DecidableEq, Repr

/-- Model of the constructor `Dog(int x) : m_x(x) {}`. -/
def Dog.ctor (x : Int) : Dog := ⟨x⟩

/-- Model of `class Cat`. -/
structure Cat where
  m_x : Int
  deriving DecidableEq, Repr

/-- Model of the constructor `Cat(int x) : m_x(x) {}`. -/
def Cat.ctor (x : Int) : Cat := ⟨x⟩

/-- An object seen through a pointer to `Animal`: the constructor is its dynamic type. `Animal`
itself is abstract and its constructor needs a `Key`, so there is no third case. -/
inductive Animal where
  | Dog (self : PolyFactory.Dog)
  | Cat (self : PolyFactory.Cat)
  deriving DecidableEq, Repr

/-- Model of `typeid(*p).name()` for `p` pointing to an `Animal`, in the Itanium ABI that
`<cxxabi.h>` belongs to. -/
def Animal.typeid_name : Animal → String
  | Animal.Dog _ => "3Dog"
  | Animal.Cat _ => "3Cat"

/-- Model of the virtual `makeNoise`: the text written to `std::cerr`. -/
def Animal.makeNoise : Animal → String
  | Animal.Dog self => "Dog: " ++ toString self.m_x ++ "\n"
  | Animal.Cat self => "Cat: " ++ toString self.m_x ++ "\n"

/-- The class `Dog` as a template argument. -/
def Dog.derived : derived_class := ⟨"3Dog"⟩

/-- The class `Cat` as a template argument. -/
def Cat.derived : derived_class := ⟨"3Cat"⟩

/-- The constructors of the classes derived from `Animal`. They touch neither the map nor the
object store, and they always return. The program has no third class derived from `Animal`, so
the last case is never used by code that compiles. -/
def Animal.ctor (T : derived_class) (x : Int) (_view : registry_view String)
    (heap : object_store Animal) : effect String Animal Animal :=
  if T = Dog.derived then ⟨[], heap, outcome.returns (Animal.Dog (Dog.ctor x))⟩
  else if T = Cat.derived then ⟨[], heap, outcome.returns (Animal.Cat (Cat.ctor x))⟩
  else ⟨[], heap, outcome.undefined⟩

/-- The program around `Animal`: the constructors of the source, and whatever functions of
type `std::unique_ptr<Animal> (*)(int)` a client defines. -/
def Animal.program
    (client : Nat → Int → registry_view String → object_store Animal →
      effect String Animal (unique_ptr Animal)) :
    program_text String Animal Int :=
  ⟨Animal.ctor, client⟩

/-- Four functions that a client of `Animal` can define and wrap with the public constructor
of `function_ptr_factory`: number 0 returns a null pointer, number 1 throws
`std::runtime_error`, number 2 throws `std::out_of_range`, and number 3 calls
`add("Zob", function 0)` and then returns a null pointer. -/
def client_functions (id : Nat) (_x : Int) (_view : registry_view String)
    (heap : object_store Animal) : effect String Animal (unique_ptr Animal) :=
  match id with
  | 0 => ⟨[], heap, outcome.returns none⟩
  | 1 => ⟨[], heap, outcome.throws exception.runtime_error⟩
  | 2 => ⟨[], heap, outcome.throws exception.out_of_range⟩
  | 3 => ⟨[("Zob", ⟨func_type.function 0⟩)], heap, outcome.returns none⟩
  | _ => ⟨[], heap, outcome.undefined⟩

/-- Model of `class Ghost`. -/
structure Ghost where
  m_x : Int
  deriving DecidableEq, Repr

/-- Model of the constructor `Ghost(std::unique_ptr<int> &&x) : m_x(*x) {}` for an argument
that points to an `int` of value `v`. -/
def Ghost.ctor (v : Int) : Ghost := ⟨v⟩

/-- An object seen through a pointer to `Creature`. -/
inductive Creature where
  | Ghost (self : PolyFactory.Ghost)
  deriving DecidableEq, Repr

/-- The class `Ghost` as a template argument. -/
def Ghost.derived : derived_class := ⟨"5Ghost"⟩

/-- The constructors of the classes derived from `Creature`. The argument is a
`std::unique_ptr<int>`, here `none` for null and `some v` for a pointer to an `int` of value
`v`. `Ghost(std::unique_ptr<int> &&x) : m_x(*x) {}` dereferences it, which is undefined for
the null pointer. `Ghost` is the only class derived from `Creature`, so the last case is never
used by code that compiles. -/
def Creature.ctor (T : derived_class) (x : Option Int) (_view : registry_view String)
    (heap : object_store Creature) : effect String Creature Creature :=
  if T = Ghost.derived then
    match x with
    | some v => ⟨[], heap, outcome.returns (Creature.Ghost (Ghost.ctor v))⟩
    | none => ⟨[], heap, outcome.undefined⟩
  else ⟨[], heap, outcome.undefined⟩

/-- The program around `Creature`: it defines no function of type `func_type` of its own. -/
def Creature.program : program_text String Creature (Option Int) :=
  ⟨Creature.ctor, fun _ _ _ heap => ⟨[], heap, outcome.undefined⟩⟩

/-- Model of `class Happy`: its only data member. -/
structure Happy where
  m_x : Int
  deriving DecidableEq, Repr

/-- Model of the implicitly declared copy constructor `Happy(const Happy&)`: a member-wise
copy. -/
def Happy.copy (other : Happy) : Happy := ⟨other.m_x⟩

/-- An object seen through a pointer to the non-strict base `Thought`; the constructor is its
dynamic type. `Thought` is abstract, and `Happy` is its only concrete class. -/
inductive Thought where
  | Happy (self : PolyFactory.Happy)
  deriving DecidableEq, Repr

/-- Model of `typeid(*p).name()` for `p` pointing to a `Thought`. -/
def Thought.typeid_name : Thought → String
  | Thought.Happy _ => "5Happy"

/-- Model of the virtual `makeNoise` of `Thought`: the text written to `std::cerr`. -/
def Thought.makeNoise : Thought → String
  | Thought.Happy self => "Happy: " ++ toString self.m_x ++ "\n"

/-- Model of `cloner<T>::clone`: `std::make_unique<T>(static_cast<const T&>(*this))`. The
arguments `copy` and `upcast` are the copy constructor of `T` and the conversion of a `T` to
its base; `self` is `*this`. The copy gets a fresh address. -/
def cloner.clone {T : Type} (copy : T → T) (upcast : T → Thought) (self : T)
    (heap : object_store Thought) : outcome (unique_ptr Thought) × object_store Thought :=
  let r := heap.allocate (upcast (copy self))
  (outcome.returns (some r.1), r.2)

/-- Model of the virtual call `p->clone()` where `p` holds the address `this`: dispatch on the
dynamic type of the object there. A call through a pointer to no object is undefined. -/
def Thought.clone (this : address) (heap : object_store Thought) :
    outcome (unique_ptr Thought) × object_store Thought :=
  match heap[this]? with
  | some (Thought.Happy self) => cloner.clone Happy.copy Thought.Happy self heap
  | none => (outcome.undefined, heap)

/-- The class `Happy` as a template argument. -/
def Happy.derived : derived_class := ⟨"5Happy"⟩

/-- Model of the constructor `Happy(int x) : m_x(x) {}`. -/
def Happy.ctor (x : Int) : Happy := ⟨x⟩

/-- The constructors of the classes derived from `Thought`. `Happy` is the only one, so the
last case is never used by code that compiles. -/
def Thought.ctor (T : derived_class) (x : Int) (_view : registry_view String)
    (heap : object_store Thought) : effect String Thought Thought :=
  if T = Happy.derived then ⟨[], heap, outcome.returns (Thought.Happy (Happy.ctor x))⟩
  else ⟨[], heap, outcome.undefined⟩

/-- The program around `Thought`: it defines no function of type `func_type` of its own. -/
def Thought.program : program_text String Thought Int :=
  ⟨Thought.ctor, fun _ _ _ heap => ⟨[], heap, outcome.undefined⟩⟩

/-! ## Sequences of operations -/

section sequences

variable {Base Args : Type}

/-- Dynamic initialisation before `main`: every instantiated `Registrar<T, B>::registered` is
initialised with `registerT()`. The list gives the classes in the order their initialisers
run, which the language leaves open. -/
def static_init (cxa_demangle : cxa_demangler) (classes : List derived_class) :
    simple_storage String :=
  classes.foldl (fun s T => (basic_poly_factory.registerT cxa_demangle T s).2)
    simple_storage.initial

/-- One call of a public operation on the registry. -/
inductive operation (Args : Type) where
  | add (k : String) (f : function_ptr_factory)
  | register_derived (T : derived_class)
  | make (k : String) (args : Args)

/-- The world after one operation. -/
def operation.run (P : program_text String Base Args) (cxa_demangle : cxa_demangler) :
    operation Args → world String Base → world String Base
  | operation.add k f, w => ⟨w.heap, simple_storage.add k f w.data⟩
  | operation.register_derived T, w =>
    ⟨w.heap, (rtti_registration.register_derived cxa_demangle T w.data).2⟩
  | operation.make k args, w => (basic_poly_factory.make P k args w).2

/-- The world after a finite sequence of operations, from left to right. -/
def run_all (P : program_text String Base Args) (cxa_demangle : cxa_demangler)
    (ops : List (operation Args)) (w : world String Base) : world String Base :=
  ops.foldl (fun w op => op.run P cxa_demangle w) w

/-- A factory yields an instance on every argument list: whatever the state it is called in,
the call returns a non-null pointer to an object. -/
def yields_instance (P : program_text String Base Args) (f : function_ptr_factory) : Prop :=
  ∀ (args : Args) (w : world String Base), ∃ (p : address) (obj : Base),
    (f.call P args w).1 = outcome.returns (some p) ∧ (f.call P args w).2.heap[p]? = some obj

end sequences

/-- A demangler that agrees with the Itanium ABI on the class names of the program. -/
def program_demangler : cxa_demangler := fun name =>
  if name = "3Dog" then some "Dog"
  else if name = "3Cat" then some "Cat"
  else if name = "5Ghost" then some "Ghost"
  else if name = "5Happy" then some "Happy"
  else none

/-! ## Facts about the map -/

section map_facts

variable {key ft : Type} [DecidableEq key]

theorem lookup_eq_none_iff (k : key) (l : List (key × ft)) :
    lookup k l = none ↔ k ∉ l.map Prod.fst := by
  induction l with
  | nil => simp [lookup]
  | cons e rest ih =>
    by_cases h : e.1 = k
    · simp [lookup, h]
    · have h' : ¬ k = e.1 := fun c => h c.symm
      simp [lookup, h, h', ih]

theorem lookup_some_mem (k : key) (l : List (key × ft))
    (f : ft) (h : lookup k l = some f) : (k, f) ∈ l := by
  induction l with
  | nil => simp [lookup] at h
  | cons e rest ih =>
    by_cases hk : e.1 = k
    · simp only [lookup, hk, if_true, Option.some.injEq] at h
      have : e = (k, f) := Prod.ext hk h
      simp [this]
    · simp only [lookup, hk, if_false] at h
      exact List.mem_cons_of_mem _ (ih h)

/-- Lookup does not depend on the order of a list in which equal keys carry equal values. -/
theorem lookup_perm (k : key) (l l' : List (key × ft))
    (hp : l.Perm l') (hf : ∀ e ∈ l, ∀ e' ∈ l, e.1 = e'.1 → e.2 = e'.2) :
    lookup k l = lookup k l' := by
  cases h : lookup k l with
  | none =>
    have hn : k ∉ l.map Prod.fst := (lookup_eq_none_iff k l).1 h
    have hn' : k ∉ l'.map Prod.fst := fun c => hn ((hp.map Prod.fst).mem_iff.2 c)
    exact ((lookup_eq_none_iff k l').2 hn').symm
  | some f =>
    cases h' : lookup k l' with
    | none =>
      have hn' : k ∉ l'.map Prod.fst := (lookup_eq_none_iff k l').1 h'
      have hn : k ∉ l.map Prod.fst := fun c => hn' ((hp.map Prod.fst).mem_iff.1 c)
      rw [(lookup_eq_none_iff k l).2 hn] at h
      cases h
    | some g =>
      have m1 : (k, f) ∈ l := lookup_some_mem k l f h
      have m2 : (k, g) ∈ l := hp.mem_iff.2 (lookup_some_mem k l' g h')
      have : f = g := hf (k, f) m1 (k, g) m2 rfl
      rw [this]

theorem unordered_map.find_eq_none_iff (m : unordered_map key ft) (k : key) :
    m.find k = none ↔ k ∉ m.keys :=
  lookup_eq_none_iff k m.entries

theorem unordered_map.mem_keys_of_find (m : unordered_map key ft) (k : key) (f : ft)
    (h : m.find k = some f) : k ∈ m.keys := by
  by_contra c
  rw [(unordered_map.find_eq_none_iff m k).2 c] at h
  cases h

theorem unordered_map.emplace_of_mem (m : unordered_map key ft) (k : key) (f : ft)
    (h : k ∈ m.keys) : m.emplace k f = m := by
  simp [unordered_map.emplace, h]

theorem unordered_map.emplace_entries_of_not_mem (m : unordered_map key ft) (k : key) (f : ft)
    (h : k ∉ m.keys) : (m.emplace k f).entries = (k, f) :: m.entries := by
  simp [unordered_map.emplace, h]

/-- Lookup after `emplace`: an existing entry wins, a fresh key maps to the new value, and
other keys are not affected. -/
theorem unordered_map.find_emplace (m : unordered_map key ft) (k k' : key) (f : ft) :
    (m.emplace k f).find k' = (m.find k').or (if k = k' then some f else none) := by
  by_cases h : k ∈ m.keys
  · rw [unordered_map.emplace_of_mem m k f h]
    cases hk : m.find k' with
    | some g => rfl
    | none =>
      have : k' ∉ m.keys := (unordered_map.find_eq_none_iff m k').1 hk
      have hne : ¬ k = k' := fun c => this (c ▸ h)
      simp [hne]
  · have he := unordered_map.emplace_entries_of_not_mem m k f h
    unfold unordered_map.find
    rw [he]
    by_cases hkk : k = k'
    · subst hkk
      have : lookup k m.entries = none := (lookup_eq_none_iff k m.entries).2 h
      simp [lookup, this]
    · simp only [lookup, hkk, if_false]
      cases lookup k' m.entries <;> rfl

theorem unordered_map.count_eq (m : unordered_map key ft) (k : key) :
    m.count k = if k ∈ m.keys then 1 else 0 := by
  obtain ⟨entries, nodup⟩ := m
  simp only [unordered_map.count, unordered_map.keys]
  induction entries with
  | nil => simp
  | cons e rest ih =>
    rw [List.map_cons, List.nodup_cons] at nodup
    have ih' := ih nodup.2
    by_cases h : e.1 = k
    · subst h
      have hn : e.1 ∉ List.map Prod.fst rest := nodup.1
      simp only [hn, if_false] at ih'
      simp [List.filter_cons, ih']
    · have h' : ¬ k = e.1 := fun c => h c.symm
      simp only [List.filter_cons, h, decide_False, Bool.false_eq_true, if_false, List.map_cons,
        List.mem_cons, h', false_or]
      exact ih'

end map_facts

/-! ## Facts about the storage operations -/

section storage_facts

variable {key Base Args : Type} [DecidableEq key]

theorem simple_storage.find_add (k k' : key) (f : function_ptr_factory)
    (s : simple_storage key) :
    (simple_storage.add k f s).find k' = (s.find k').or (if k = k' then some f else none) :=
  unordered_map.find_emplace s k k' f

theorem simple_storage.find_add_of_find (k k' : key) (f g : function_ptr_factory)
    (s : simple_storage key) (h : s.find k' = some g) :
    (simple_storage.add k f s).find k' = some g := by
  rw [simple_storage.find_add, h]
  rfl

/-- Lookup after a sequence of insertions: an entry of the starting map wins, then the first
pair of the sequence with that key. -/
theorem find_add_all (l : List (key × function_ptr_factory)) (s : simple_storage key)
    (k : key) : (add_all l s).find k = (s.find k).or (lookup k l) := by
  induction l generalizing s with
  | nil =>
    show s.find k = _
    cases s.find k <;> rfl
  | cons e rest ih =>
    show (add_all rest (simple_storage.add e.1 e.2 s)).find k = _
    rw [ih, simple_storage.find_add]
    cases hs : s.find k with
    | some g => rfl
    | none =>
      by_cases hk : e.1 = k
      · simp [lookup, hk]
      · simp [lookup, hk]

theorem find_add_all_of_find (l : List (key × function_ptr_factory)) (s : simple_storage key)
    (k : key) (f : function_ptr_factory) (h : s.find k = some f) :
    (add_all l s).find k = some f := by
  rw [find_add_all, h]
  rfl

/-- Two maps with the same lookups still have the same lookups after the same insertions. -/
theorem find_add_all_congr (l : List (key × function_ptr_factory)) (s s' : simple_storage key)
    (h : ∀ k, s.find k = s'.find k) (k : key) :
    (add_all l s).find k = (add_all l s').find k := by
  rw [find_add_all, find_add_all, h]

theorem simple_storage.make_of_find (P : program_text key Base Args) (k : key) (args : Args)
    (w : world key Base) (f : function_ptr_factory) (h : w.data.find k = some f) :
    simple_storage.make P k args w = f.call P args w := by
  unfold simple_storage.make unordered_map.«at»
  rw [h]

theorem simple_storage.make_of_not_mem (P : program_text key Base Args) (k : key) (args : Args)
    (w : world key Base) (h : k ∉ w.data.keys) :
    simple_storage.make P k args w = (outcome.throws exception.out_of_range, w) := by
  unfold simple_storage.make unordered_map.«at»
  rw [(unordered_map.find_eq_none_iff w.data k).2 h]

/-- A call leaves every entry of the map where it was. -/
theorem function_ptr_factory.find_call (P : program_text key Base Args)
    (g : function_ptr_factory) (args : Args) (w : world key Base) (k : key)
    (f : function_ptr_factory) (h : w.data.find k = some f) :
    (g.call P args w).2.data.find k = some f :=
  find_add_all_of_find _ w.data k f h

theorem simple_storage.find_make (P : program_text key Base Args) (k' : key) (args : Args)
    (w : world key Base) (k : key) (f : function_ptr_factory) (h : w.data.find k = some f) :
    (simple_storage.make P k' args w).2.data.find k = some f := by
  cases hk : w.data.find k' with
  | none =>
    rw [simple_storage.make_of_not_mem P k' args w ((unordered_map.find_eq_none_iff _ _).1 hk)]
    exact h
  | some g =>
    rw [simple_storage.make_of_find P k' args w g hk]
    exact function_ptr_factory.find_call P g args w k f h

end storage_facts

section sequence_facts

variable {Base Args : Type}

theorem operation.find_run (P : program_text String Base Args) (cxa_demangle : cxa_demangler)
    (op : operation Args) (w : world String Base) (k : String) (f : function_ptr_factory)
    (h : w.data.find k = some f) : (op.run P cxa_demangle w).data.find k = some f := by
  cases op with
  | add k' g => exact simple_storage.find_add_of_find k' k g f w.data h
  | register_derived T => exact simple_storage.find_add_of_find _ k _ f w.data h
  | make k' args => exact simple_storage.find_make P k' args w k f h

theorem find_run_all (P : program_text String Base Args) (cxa_demangle : cxa_demangler)
    (ops : List (operation Args)) (w : world String Base) (k : String)
    (f : function_ptr_factory) (h : w.data.find k = some f) :
    (run_all P cxa_demangle ops w).data.find k = some f := by
  induction ops generalizing w with
  | nil => exact h
  | cons op rest ih =>
    exact ih (op.run P cxa_demangle w) (operation.find_run P cxa_demangle op w k f h)

end sequence_facts

/-! ## The claims -/

section claims

variable {key Base Args : Type} [DecidableEq key]

/-- C1, the claim as stated fails: with a client function that throws wrapped and added under
the key "K", the key has an entry and `make("K", 3)` fails, with `std::runtime_error` for
one function, and for another with `std::out_of_range`, the NotFound condition itself. -/
theorem make_fails_on_present_key :
    "K" ∈ (simple_storage.add "K" ⟨func_type.function 1⟩ simple_storage.initial).keys ∧
    (simple_storage.make (Animal.program client_functions) "K" 3
      ⟨[], simple_storage.add "K" ⟨func_type.function 1⟩ simple_storage.initial⟩).1 =
      outcome.throws exception.runtime_error ∧
    "K" ∈ (simple_storage.add "K" ⟨func_type.function 2⟩ simple_storage.initial).keys ∧
    (simple_storage.make (Animal.program client_functions) "K" 3
      ⟨[], simple_storage.add "K" ⟨func_type.function 2⟩ simple_storage.initial⟩).1 =
      outcome.throws exception.out_of_range := by
  refine ⟨by decide, rfl, by decide, rfl⟩

/-- C1, amended: when `k` has no entry, `make(k, args)` fails with `std::out_of_range`
(NotFound), produces no instance and changes nothing; when `k` has an entry, `make(k, args)`
is the call of the factory of `k` on `args`, with its result, its failure and its effects.
Every call of `make` is one of these two, so `make` has no failure of its own but NotFound
for an absent key. -/
theorem make_is_lookup_then_call (P : program_text key Base Args) (k : key) (args : Args)
    (w : world key Base) :
    (k ∉ w.data.keys →
      simple_storage.make P k args w = (outcome.throws exception.out_of_range, w)) ∧
    (∀ f, w.data.find k = some f → simple_storage.make P k args w = f.call P args w) ∧
    ((k ∉ w.data.keys ∧
        simple_storage.make P k args w = (outcome.throws exception.out_of_range, w)) ∨
      (k ∈ w.data.keys ∧
        ∃ f, w.data.find k = some f ∧ simple_storage.make P k args w = f.call P args w)) := by
  refine ⟨simple_storage.make_of_not_mem P k args w,
    fun f hf => simple_storage.make_of_find P k args w f hf, ?_⟩
  cases hf : w.data.find k with
  | none =>
    have hk := (unordered_map.find_eq_none_iff w.data k).1 hf
    exact Or.inl ⟨hk, simple_storage.make_of_not_mem P k args w hk⟩
  | some f =>
    exact Or.inr ⟨unordered_map.mem_keys_of_find w.data k f hf, f, rfl,
      simple_storage.make_of_find P k args w f hf⟩

/-- C2: a class `T` is registered under `k` when the registry maps `k` to `create<T>()`;
`register_derived<T>` brings this about for the key of `T` whenever that key is free. From then
on, whatever operations follow, `make(k, args)` with arguments on which the constructor of `T`
returns gives a non-null pointer to a new object, the `T` constructed from `args`. With `Dog`
and `Cat` registered in either order, `make("Dog", 3)` is a `Dog` holding 3 and
`make("Cat", 2)` is a `Cat` holding 2. -/
theorem make_round_trip (cxa_demangle : cxa_demangler) :
    (∀ (P : program_text String Base Args) (T : derived_class) (w : world String Base)
        (k : String) (ops : List (operation Args)) (args : Args) (obj : Base),
        w.data.find k = some (function_ptr_factory.create T) →
        (P.ctor T args (run_all P cxa_demangle ops w).data.find
          (run_all P cxa_demangle ops w).heap).result = outcome.returns obj →
        (basic_poly_factory.make P k args (run_all P cxa_demangle ops w)).1 =
          outcome.returns (some (P.ctor T args (run_all P cxa_demangle ops w).data.find
            (run_all P cxa_demangle ops w).heap).heap.length) ∧
        (basic_poly_factory.make P k args (run_all P cxa_demangle ops w)).2.heap =
          (P.ctor T args (run_all P cxa_demangle ops w).data.find
            (run_all P cxa_demangle ops w).heap).heap ++ [obj] ∧
        (basic_poly_factory.make P k args (run_all P cxa_demangle ops w)).2.heap[
          (P.ctor T args (run_all P cxa_demangle ops w).data.find
            (run_all P cxa_demangle ops w).heap).heap.length]? = some obj) ∧
    (∀ (T : derived_class) (s : simple_storage String),
        demangle cxa_demangle T.typeid_name ∉ s.keys →
        (rtti_registration.register_derived cxa_demangle T s).2.find
          (demangle cxa_demangle T.typeid_name) = some (function_ptr_factory.create T)) ∧
    (cxa_demangle "3Dog" = some "Dog" → cxa_demangle "3Cat" = some "Cat" →
      ∀ client, ∀ order ∈ [[Dog.derived, Cat.derived], [Cat.derived, Dog.derived]],
        basic_poly_factory.make (Animal.program client) "Dog" 3
            ⟨[], static_init cxa_demangle order⟩ =
          (outcome.returns (some 0), ⟨[Animal.Dog ⟨3⟩], static_init cxa_demangle order⟩) ∧
        basic_poly_factory.make (Animal.program client) "Cat" 2
            ⟨[Animal.Dog ⟨3⟩], static_init cxa_demangle order⟩ =
          (outcome.returns (some 1),
            ⟨[Animal.Dog ⟨3⟩, Animal.Cat ⟨2⟩], static_init cxa_demangle order⟩) ∧
        Animal.typeid_name (Animal.Dog ⟨3⟩) = Dog.derived.typeid_name ∧
        Animal.typeid_name (Animal.Cat ⟨2⟩) = Cat.derived.typeid_name ∧
        Animal.makeNoise (Animal.Dog ⟨3⟩) = "Dog: 3\n" ∧
        Animal.makeNoise (Animal.Cat ⟨2⟩) = "Cat: 2\n") := by
  have registered : ∀ (T : derived_class) (s : simple_storage String),
      demangle cxa_demangle T.typeid_name ∉ s.keys →
      (rtti_registration.register_derived cxa_demangle T s).2.find
        (demangle cxa_demangle T.typeid_name) = some (function_ptr_factory.create T) := by
    intro T s hfresh
    have h0 : s.find (demangle cxa_demangle T.typeid_name) = none :=
      (unordered_map.find_eq_none_iff s _).2 hfresh
    show (simple_storage.add _ _ s).find _ = _
    rw [simple_storage.find_add, h0]
    simp [Option.or]
  refine ⟨?_, registered, ?_⟩
  · intro P T w k ops args obj h1 hobj
    have h2 := find_run_all P cxa_demangle ops w k _ h1
    have hm : basic_poly_factory.make P k args (run_all P cxa_demangle ops w) =
        (function_ptr_factory.create T).call P args (run_all P cxa_demangle ops w) :=
      simple_storage.make_of_find P k args _ _ h2
    rw [hm]
    simp [function_ptr_factory.call, function_ptr_factory.create, func_type.invoke,
      make_unique, hobj, object_store.allocate]
  · intro hDog hCat client order horder
    have kDog : demangle cxa_demangle Dog.derived.typeid_name = "Dog" := by
      show demangle cxa_demangle "3Dog" = "Dog"
      simp [demangle, hDog]
    have kCat : demangle cxa_demangle Cat.derived.typeid_name = "Cat" := by
      show demangle cxa_demangle "3Cat" = "Cat"
      simp [demangle, hCat]
    have e : (simple_storage.initial : simple_storage String).keys = [] := rfl
    have rDog := registered Dog.derived simple_storage.initial
      (by rw [e]; exact List.not_mem_nil _)
    have rCat := registered Cat.derived simple_storage.initial
      (by rw [e]; exact List.not_mem_nil _)
    have rDogCat := registered Cat.derived
      (rtti_registration.register_derived cxa_demangle Dog.derived simple_storage.initial).2
      (by
        show demangle cxa_demangle Cat.derived.typeid_name ∉
          unordered_map.keys (simple_storage.add (demangle cxa_demangle Dog.derived.typeid_name)
            (function_ptr_factory.create Dog.derived) simple_storage.initial)
        rw [kDog, kCat]
        decide)
    have rCatDog := registered Dog.derived
      (rtti_registration.register_derived cxa_demangle Cat.derived simple_storage.initial).2
      (by
        show demangle cxa_demangle Dog.derived.typeid_name ∉
          unordered_map.keys (simple_storage.add (demangle cxa_demangle Cat.derived.typeid_name)
            (function_ptr_factory.create Cat.derived) simple_storage.initial)
        rw [kDog, kCat]
        decide)
    rw [kDog] at rDog rCatDog
    rw [kCat] at rCat rDogCat
    have fDog : ∀ s : simple_storage String, s.find "Dog" = some (function_ptr_factory.create
        Dog.derived) → basic_poly_factory.make (Animal.program client) "Dog" 3 ⟨[], s⟩ =
        (outcome.returns (some 0), ⟨[Animal.Dog ⟨3⟩], s⟩) := by
      intro s hs
      exact simple_storage.make_of_find (Animal.program client) "Dog" 3 ⟨[], s⟩ _ hs
    have fCat : ∀ s : simple_storage String, s.find "Cat" = some (function_ptr_factory.create
        Cat.derived) → basic_poly_factory.make (Animal.program client) "Cat" 2
          ⟨[Animal.Dog ⟨3⟩], s⟩ =
        (outcome.returns (some 1), ⟨[Animal.Dog ⟨3⟩, Animal.Cat ⟨2⟩], s⟩) := by
      intro s hs
      exact simple_storage.make_of_find (Animal.program client) "Cat" 2 ⟨_, s⟩ _ hs
    simp only [List.mem_cons, List.mem_singleton, List.not_mem_nil, or_false] at horder
    rcases horder with rfl | rfl
    · exact ⟨fDog _ (simple_storage.find_add_of_find _ _ _ _ _ rDog), fCat _ rDogCat,
        rfl, rfl, rfl, rfl⟩
    · exact ⟨fDog _ rCatDog, fCat _ (simple_storage.find_add_of_find _ _ _ _ _ rCat),
        rfl, rfl, rfl, rfl⟩

/-- C3: when `k` already has the factory `f1`, `add(k, f2)` returns the map it was given, so
`k` still maps to `f1`, every other lookup is as before, and a later `make(k, args)` is the
call of `f1`. -/
theorem first_registration_wins (P : program_text key Base Args) (s : simple_storage key)
    (heap : object_store Base) (k : key) (f1 f2 : function_ptr_factory) (args : Args)
    (h : s.find k = some f1) :
    simple_storage.add k f2 s = s ∧
    (simple_storage.add k f2 s).find k = some f1 ∧
    (∀ k', (simple_storage.add k f2 s).find k' = s.find k') ∧
    simple_storage.make P k args ⟨heap, simple_storage.add k f2 s⟩ =
      f1.call P args ⟨heap, s⟩ := by
  have hk : k ∈ s.keys := unordered_map.mem_keys_of_find s k f1 h
  have e : simple_storage.add k f2 s = s := unordered_map.emplace_of_mem s k f2 hk
  rw [e]
  exact ⟨rfl, h, fun _ => rfl, simple_storage.make_of_find P k args ⟨heap, s⟩ f1 h⟩

/-- C4: `register_derived<T>()` run twice leaves the map that one run leaves, the map then has
exactly one entry under the key of `T`, and both calls return `true`. -/
theorem register_derived_idempotent (cxa_demangle : cxa_demangler) (T : derived_class)
    (s : simple_storage String) :
    (rtti_registration.register_derived cxa_demangle T
        (rtti_registration.register_derived cxa_demangle T s).2).2 =
      (rtti_registration.register_derived cxa_demangle T s).2 ∧
    (rtti_registration.register_derived cxa_demangle T s).1 = true ∧
    (rtti_registration.register_derived cxa_demangle T
        (rtti_registration.register_derived cxa_demangle T s).2).1 = true ∧
    (rtti_registration.register_derived cxa_demangle T
        (rtti_registration.register_derived cxa_demangle T s).2).2.count
      (demangle cxa_demangle T.typeid_name) = 1 := by
  have hmem : demangle cxa_demangle T.typeid_name ∈
      (rtti_registration.register_derived cxa_demangle T s).2.keys := by
    by_contra c
    have hnone := (unordered_map.find_eq_none_iff _ _).2 c
    have hfind : (rtti_registration.register_derived cxa_demangle T s).2.find
        (demangle cxa_demangle T.typeid_name) =
        (s.find (demangle cxa_demangle T.typeid_name)).or
          (if demangle cxa_demangle T.typeid_name = demangle cxa_demangle T.typeid_name
            then some (function_ptr_factory.create T) else none) :=
      simple_storage.find_add _ _ _ s
    rw [hnone, if_pos rfl] at hfind
    cases hs : s.find (demangle cxa_demangle T.typeid_name) <;> rw [hs] at hfind <;> cases hfind
  have e : (rtti_registration.register_derived cxa_demangle T
        (rtti_registration.register_derived cxa_demangle T s).2).2 =
      (rtti_registration.register_derived cxa_demangle T s).2 :=
    unordered_map.emplace_of_mem _ _ _ hmem
  refine ⟨e, rfl, rfl, ?_⟩
  rw [e, unordered_map.count_eq, if_pos hmem]

/-- C6: for a `Happy` holding `x` at address `p`, `p->clone()` returns a non-null pointer to a
new object: its address `q` is not `p` and was not in use, the object there has the dynamic
type `Happy` and holds `x`, and the object at `p` and every other object are as before. An
object made by `make("Happy", x)` is such a `Happy`, and its clone is a second object. -/
theorem clone_same_type_and_state (x : Int) :
    (∀ (heap : object_store Thought) (p : address),
      heap[p]? = some (Thought.Happy ⟨x⟩) →
      ∃ q : address,
        Thought.clone p heap = (outcome.returns (some q), heap ++ [Thought.Happy ⟨x⟩]) ∧
        q ≠ p ∧ heap[q]? = none ∧
        (heap ++ [Thought.Happy ⟨x⟩])[q]? = some (Thought.Happy ⟨x⟩) ∧
        (heap ++ [Thought.Happy ⟨x⟩])[p]? = heap[p]? ∧
        (∀ (a : address) (obj : Thought), heap[a]? = some obj →
          (heap ++ [Thought.Happy ⟨x⟩])[a]? = some obj) ∧
        Thought.typeid_name (Thought.Happy ⟨x⟩) = Happy.derived.typeid_name ∧
        Thought.makeNoise (Thought.Happy ⟨x⟩) = "Happy: " ++ toString x ++ "\n") ∧
    (∀ (cxa_demangle : cxa_demangler) (heap : object_store Thought),
      cxa_demangle "5Happy" = some "Happy" →
      basic_poly_factory.make Thought.program "Happy" x
          ⟨heap, static_init cxa_demangle [Happy.derived]⟩ =
        (outcome.returns (some heap.length),
          ⟨heap ++ [Thought.Happy ⟨x⟩], static_init cxa_demangle [Happy.derived]⟩) ∧
      (heap ++ [Thought.Happy ⟨x⟩])[heap.length]? = some (Thought.Happy ⟨x⟩) ∧
      Thought.clone heap.length (heap ++ [Thought.Happy ⟨x⟩]) =
        (outcome.returns (some (heap.length + 1)),
          heap ++ [Thought.Happy ⟨x⟩] ++ [Thought.Happy ⟨x⟩])) := by
  constructor
  · intro heap p hp
    have hlt : p < heap.length := by
      by_contra c
      rw [List.getElem?_eq_none (Nat.le_of_not_lt c)] at hp
      cases hp
    have old : ∀ (a : address) (obj : Thought), heap[a]? = some obj →
        (heap ++ [Thought.Happy ⟨x⟩])[a]? = some obj := by
      intro a obj ha
      have hal : a < heap.length := by
        by_contra c
        rw [List.getElem?_eq_none (Nat.le_of_not_lt c)] at ha
        cases ha
      rw [List.getElem?_append_left hal]
      exact ha
    refine ⟨heap.length, ?_, Nat.ne_of_gt hlt, List.getElem?_eq_none (Nat.le_refl _), ?_,
      ?_, old, rfl, rfl⟩
    · unfold Thought.clone
      rw [hp]
      rfl
    · simp
    · rw [old p _ hp, hp]
  · intro cxa_demangle heap hHappy
    have kHappy : demangle cxa_demangle Happy.derived.typeid_name = "Happy" := by
      show demangle cxa_demangle "5Happy" = "Happy"
      simp [demangle, hHappy]
    have h1 : (static_init cxa_demangle [Happy.derived]).find "Happy" =
        some (function_ptr_factory.create Happy.derived) := by
      show (simple_storage.add (demangle cxa_demangle Happy.derived.typeid_name) _
        simple_storage.initial).find "Happy" = _
      rw [kHappy, simple_storage.find_add]
      rfl
    have hobj : (heap ++ [Thought.Happy ⟨x⟩])[heap.length]? = some (Thought.Happy ⟨x⟩) := by
      simp
    refine ⟨simple_storage.make_of_find Thought.program "Happy" x ⟨heap, _⟩ _ h1, hobj, ?_⟩
    unfold Thought.clone
    rw [hobj]
    simp [cloner.clone, object_store.allocate, Happy.copy]

/-- C7, the claim as stated fails. One insertion into the empty registry stores, under the key
"Zob", a factory around a function that returns the null pointer, and `make("Zob", 0)`
then succeeds with a null pointer, that is, with no instance. And with `Ghost` registered by
`register_derived<Ghost>`, `make("Ghost", nullptr)` has undefined behaviour, because the
constructor of `Ghost` dereferences its argument. -/
theorem null_factory_breaks_I1 :
    (add_all [("Zob", (⟨func_type.function 0⟩ : function_ptr_factory))]
        simple_storage.initial).find "Zob" = some ⟨func_type.function 0⟩ ∧
    ¬ yields_instance (Animal.program client_functions) ⟨func_type.function 0⟩ ∧
    basic_poly_factory.make (Animal.program client_functions) "Zob" 0
        ⟨[], add_all [("Zob", (⟨func_type.function 0⟩ : function_ptr_factory))]
          simple_storage.initial⟩ =
      (outcome.returns none,
        ⟨[], add_all [("Zob", (⟨func_type.function 0⟩ : function_ptr_factory))]
          simple_storage.initial⟩) ∧
    (static_init program_demangler [Ghost.derived]).find "Ghost" =
      some (function_ptr_factory.create Ghost.derived) ∧
    ¬ yields_instance Creature.program (function_ptr_factory.create Ghost.derived) ∧
    (basic_poly_factory.make Creature.program "Ghost" none
        ⟨[], static_init program_demangler [Ghost.derived]⟩).1 = outcome.undefined := by
  refine ⟨by decide, ?_, rfl, by decide, ?_, rfl⟩
  · intro h
    obtain ⟨p, obj, hp, _⟩ := h 0 ⟨[], simple_storage.initial⟩
    cases hp
  · intro h
    obtain ⟨p, obj, hp, _⟩ := h none ⟨[], simple_storage.initial⟩
    cases hp

/-- C7, amended: in every registry reached from the empty one by insertions of factories that
yield an instance on every argument list, every key present maps to such a factory. -/
theorem I1_of_yielding_factories (P : program_text String Base Args)
    (l : List (String × function_ptr_factory))
    (hl : ∀ e ∈ l, yields_instance P e.2) (k : String) (f : function_ptr_factory)
    (hk : (add_all l simple_storage.initial).find k = some f) :
    yields_instance P f := by
  rw [find_add_all] at hk
  have h0 : (simple_storage.initial : simple_storage String).find k = none := rfl
  rw [h0] at hk
  exact hl (k, f) (lookup_some_mem k l f hk)

/-- C8, the claim as stated fails: the two registrations ("Dog", create<Dog>) and
("Dog", create<Cat>) applied to the empty registry in the two possible orders give
registries on which `make("Dog", 3)` makes a `Dog` in one and a `Cat` in the other. -/
theorem insertion_order_matters_on_collision :
    List.Perm [("Dog", function_ptr_factory.create Dog.derived),
               ("Dog", function_ptr_factory.create Cat.derived)]
              [("Dog", function_ptr_factory.create Cat.derived),
               ("Dog", function_ptr_factory.create Dog.derived)] ∧
    (basic_poly_factory.make (Animal.program client_functions) "Dog" 3
        ⟨[], add_all [("Dog", function_ptr_factory.create Dog.derived),
                      ("Dog", function_ptr_factory.create Cat.derived)]
          simple_storage.initial⟩).1 = outcome.returns (some 0) ∧
    (basic_poly_factory.make (Animal.program client_functions) "Dog" 3
        ⟨[], add_all [("Dog", function_ptr_factory.create Dog.derived),
                      ("Dog", function_ptr_factory.create Cat.derived)]
          simple_storage.initial⟩).2.heap = [Animal.Dog ⟨3⟩] ∧
    (basic_poly_factory.make (Animal.program client_functions) "Dog" 3
        ⟨[], add_all [("Dog", function_ptr_factory.create Cat.derived),
                      ("Dog", function_ptr_factory.create Dog.derived)]
          simple_storage.initial⟩).1 = outcome.returns (some 0) ∧
    (basic_poly_factory.make (Animal.program client_functions) "Dog" 3
        ⟨[], add_all [("Dog", function_ptr_factory.create Cat.derived),
                      ("Dog", function_ptr_factory.create Dog.derived)]
          simple_storage.initial⟩).2.heap = [Animal.Cat ⟨3⟩] ∧
    (basic_poly_factory.make (Animal.program client_functions) "Dog" 3
        ⟨[], add_all [("Dog", function_ptr_factory.create Dog.derived),
                      ("Dog", function_ptr_factory.create Cat.derived)]
          simple_storage.initial⟩).2.heap ≠
      (basic_poly_factory.make (Animal.program client_functions) "Dog" 3
        ⟨[], add_all [("Dog", function_ptr_factory.create Cat.derived),
                      ("Dog", function_ptr_factory.create Dog.derived)]
          simple_storage.initial⟩).2.heap := by
  refine ⟨List.Perm.swap _ _ _, rfl, rfl, rfl, rfl, ?_⟩
  decide

/-- C8, amended: for every list of registrations in which registrations with the same key
carry the same factory, and every permutation of it, inserting in either order into the same
starting registry gives registries on which `make(k, args)` ends the same way, with the same
result or the same failure, and leaves the same objects and the same lookups, for every key
and argument list. -/
theorem insertion_order_irrelevant (P : program_text String Base Args)
    (l l' : List (String × function_ptr_factory))
    (hp : l.Perm l') (hf : ∀ e ∈ l, ∀ e' ∈ l, e.1 = e'.1 → e.2 = e'.2)
    (s : simple_storage String) (heap : object_store Base) (k : String) (args : Args) :
    (basic_poly_factory.make P k args ⟨heap, add_all l s⟩).1 =
      (basic_poly_factory.make P k args ⟨heap, add_all l' s⟩).1 ∧
    (basic_poly_factory.make P k args ⟨heap, add_all l s⟩).2.heap =
      (basic_poly_factory.make P k args ⟨heap, add_all l' s⟩).2.heap ∧
    ∀ k', (basic_poly_factory.make P k args ⟨heap, add_all l s⟩).2.data.find k' =
      (basic_poly_factory.make P k args ⟨heap, add_all l' s⟩).2.data.find k' := by
  have hfind : ∀ k', (add_all l s).find k' = (add_all l' s).find k' := by
    intro k'
    rw [find_add_all, find_add_all, lookup_perm k' l l' hp hf]
  have hview : (add_all l s).find = (add_all l' s).find := funext hfind
  cases hk : (add_all l s).find k with
  | none =>
    have hk' : (add_all l' s).find k = none := by rw [← hfind, hk]
    have m1 := simple_storage.make_of_not_mem P k args ⟨heap, add_all l s⟩
      ((unordered_map.find_eq_none_iff _ _).1 hk)
    have m2 := simple_storage.make_of_not_mem P k args ⟨heap, add_all l' s⟩
      ((unordered_map.find_eq_none_iff _ _).1 hk')
    show (simple_storage.make P k args _).1 = (simple_storage.make P k args _).1 ∧
      (simple_storage.make P k args _).2.heap = (simple_storage.make P k args _).2.heap ∧
      ∀ k', (simple_storage.make P k args _).2.data.find k' =
        (simple_storage.make P k args _).2.data.find k'
    rw [m1, m2]
    exact ⟨rfl, rfl, hfind⟩
  | some f =>
    have hk' : (add_all l' s).find k = some f := by rw [← hfind, hk]
    have m1 := simple_storage.make_of_find P k args ⟨heap, add_all l s⟩ f hk
    have m2 := simple_storage.make_of_find P k args ⟨heap, add_all l' s⟩ f hk'
    show (simple_storage.make P k args _).1 = (simple_storage.make P k args _).1 ∧
      (simple_storage.make P k args _).2.heap = (simple_storage.make P k args _).2.heap ∧
      ∀ k', (simple_storage.make P k args _).2.data.find k' =
        (simple_storage.make P k args _).2.data.find k'
    rw [m1, m2]
    simp only [function_ptr_factory.call, hview, true_and]
    exact fun k' => find_add_all_congr _ _ _ hfind k'

/-- C9, the claim as stated fails: with a client function that calls `add` wrapped and added
under the key "K", `make("K", 3)` succeeds and leaves a registry that has the entry
"Zob", which the registry before the call does not have. -/
theorem make_changes_registry_through_factory :
    (simple_storage.add "K" ⟨func_type.function 3⟩ simple_storage.initial).find "Zob" =
      none ∧
    (simple_storage.make (Animal.program client_functions) "K" 3
      ⟨[], simple_storage.add "K" ⟨func_type.function 3⟩ simple_storage.initial⟩).1 =
      outcome.returns none ∧
    (simple_storage.make (Animal.program client_functions) "K" 3
      ⟨[], simple_storage.add "K" ⟨func_type.function 3⟩ simple_storage.initial⟩).2.data.find
        "Zob" = some ⟨func_type.function 0⟩ ∧
    (simple_storage.make (Animal.program client_functions) "K" 3
      ⟨[], simple_storage.add "K" ⟨func_type.function 3⟩ simple_storage.initial⟩).2.data ≠
      simple_storage.add "K" ⟨func_type.function 3⟩ simple_storage.initial := by
  refine ⟨by decide, rfl, by decide, ?_⟩
  intro h
  have h' := congrArg (fun m => unordered_map.find m "Zob") h
  revert h'
  decide

/-- C9, amended: `make(k, args)` writes nothing to the registry itself. When `k` has no entry
the failing call leaves the registry and the objects as they were. When `k` has an entry, the
registry after the call is the registry before it with the calls of `add` made by the factory
applied, and so it is the same registry when the factory makes none. In every case each entry
present before the call is present after it with the same factory. -/
theorem make_leaves_registry_to_factory (P : program_text key Base Args) (k : key)
    (args : Args) (w : world key Base) :
    (k ∉ w.data.keys → (simple_storage.make P k args w).2 = w) ∧
    (∀ f, w.data.find k = some f →
      (simple_storage.make P k args w).2.data =
        add_all (f.m_func_ptr.invoke P args w.data.find w.heap).adds w.data) ∧
    (∀ f, w.data.find k = some f →
      (f.m_func_ptr.invoke P args w.data.find w.heap).adds = [] →
      (simple_storage.make P k args w).2.data = w.data) ∧
    (∀ k' g, w.data.find k' = some g →
      (simple_storage.make P k args w).2.data.find k' = some g) := by
  refine ⟨?_, ?_, ?_, ?_⟩
  · intro hk
    rw [simple_storage.make_of_not_mem P k args w hk]
  · intro f hf
    rw [simple_storage.make_of_find P k args w f hf]
    rfl
  · intro f hf hadds
    rw [simple_storage.make_of_find P k args w f hf]
    show add_all (f.m_func_ptr.invoke P args w.data.find w.heap).adds w.data = w.data
    rw [hadds]
    rfl
  · intro k' g hg
    exact simple_storage.find_make P k args w k' g hg

/-- C10: an entry that maps `k` to `f` is still there, with the same `f`, after every finite
sequence of `add`, `register_derived` and `make` calls. -/
theorem entries_never_removed_or_rebound (P : program_text String Base Args)
    (cxa_demangle : cxa_demangler) (w : world String Base) (k : String)
    (f : function_ptr_factory) (ops : List (operation Args))
    (h : w.data.find k = some f) :
    (run_all P cxa_demangle ops w).data.find k = some f ∧
    k ∈ (run_all P cxa_demangle ops w).data.keys := by
  have h' := find_run_all P cxa_demangle ops w k f h
  exact ⟨h', unordered_map.mem_keys_of_find _ k f h'⟩

/-! ## The claims at concrete inputs -/

/-- C1, amended, at concrete inputs: with `Dog` and `Cat` registered, `make("Fox", 1)` fails
with NotFound and changes nothing, and `make("Dog", 3)` is the call of the factory of
`Dog`. -/
theorem make_is_lookup_then_call_witness :
    "Fox" ∉ (static_init program_demangler [Dog.derived, Cat.derived]).keys ∧
    simple_storage.make (Animal.program client_functions) "Fox" 1
        ⟨[], static_init program_demangler [Dog.derived, Cat.derived]⟩ =
      (outcome.throws exception.out_of_range,
        ⟨[], static_init program_demangler [Dog.derived, Cat.derived]⟩) ∧
    (static_init program_demangler [Dog.derived, Cat.derived]).find "Dog" =
      some (function_ptr_factory.create Dog.derived) ∧
    simple_storage.make (Animal.program client_functions) "Dog" 3
        ⟨[], static_init program_demangler [Dog.derived, Cat.derived]⟩ =
      (function_ptr_factory.create Dog.derived).call (Animal.program client_functions) 3
        ⟨[], static_init program_demangler [Dog.derived, Cat.derived]⟩ :=
  ⟨by decide,
   (make_is_lookup_then_call (Animal.program client_functions) "Fox" 1
     ⟨[], static_init program_demangler [Dog.derived, Cat.derived]⟩).1 (by decide),
   by decide,
   (make_is_lookup_then_call (Animal.program client_functions) "Dog" 3
     ⟨[], static_init program_demangler [Dog.derived, Cat.derived]⟩).2.1 _ (by decide)⟩

/-- C2 at concrete inputs: `Cat` stays registered under "Cat" after a colliding `add`, `Dog`
is registered into the empty registry, and `make("Dog", 3)` is a `Dog` holding 3. -/
theorem make_round_trip_witness :
    (static_init program_demangler [Dog.derived, Cat.derived]).find "Cat" =
      some (function_ptr_factory.create Cat.derived) ∧
    (basic_poly_factory.make (Animal.program client_functions) "Cat" 7
      (run_all (Animal.program client_functions) program_demangler
        [operation.add "Cat" (function_ptr_factory.create Dog.derived)]
        ⟨[], static_init program_demangler [Dog.derived, Cat.derived]⟩)).2.heap =
      [Animal.Cat ⟨7⟩] ∧
    demangle program_demangler Dog.derived.typeid_name ∉
      (simple_storage.initial : simple_storage String).keys ∧
    (rtti_registration.register_derived program_demangler Dog.derived
      simple_storage.initial).2.find (demangle program_demangler Dog.derived.typeid_name) =
      some (function_ptr_factory.create Dog.derived) ∧
    program_demangler "3Dog" = some "Dog" ∧ program_demangler "3Cat" = some "Cat" ∧
    basic_poly_factory.make (Animal.program client_functions) "Dog" 3
        ⟨[], static_init program_demangler [Cat.derived, Dog.derived]⟩ =
      (outcome.returns (some 0),
        ⟨[Animal.Dog ⟨3⟩], static_init program_demangler [Cat.derived, Dog.derived]⟩) :=
  ⟨by decide,
   ((@make_round_trip Animal Int program_demangler).1 (Animal.program client_functions)
     Cat.derived ⟨[], static_init program_demangler [Dog.derived, Cat.derived]⟩ "Cat"
     [operation.add "Cat" (function_ptr_factory.create Dog.derived)] 7 (Animal.Cat ⟨7⟩)
     (by decide) rfl).2.1,
   List.not_mem_nil _,
   (@make_round_trip Animal Int program_demangler).2.1 Dog.derived simple_storage.initial
     (List.not_mem_nil _),
   rfl, rfl,
   ((@make_round_trip Animal Int program_demangler).2.2 rfl rfl client_functions
     [Cat.derived, Dog.derived] (by simp)).1⟩

/-- C3 at a concrete input: with `Dog` registered, `add("Dog", create<Cat>())` changes nothing
and `make("Dog", 3)` still makes a `Dog`. -/
theorem first_registration_wins_witness :
    (static_init program_demangler [Dog.derived]).find "Dog" =
      some (function_ptr_factory.create Dog.derived) ∧
    simple_storage.add "Dog" (function_ptr_factory.create Cat.derived)
      (static_init program_demangler [Dog.derived]) =
      static_init program_demangler [Dog.derived] ∧
    simple_storage.make (Animal.program client_functions) "Dog" 3
      ⟨[], simple_storage.add "Dog" (function_ptr_factory.create Cat.derived)
        (static_init program_demangler [Dog.derived])⟩ =
      (outcome.returns (some 0), ⟨[Animal.Dog ⟨3⟩], static_init program_demangler [Dog.derived]⟩) :=
  have h := first_registration_wins (Animal.program client_functions)
    (static_init program_demangler [Dog.derived]) [] "Dog"
    (function_ptr_factory.create Dog.derived) (function_ptr_factory.create Cat.derived) 3
    (by decide)
  ⟨by decide, h.1, h.2.2.2⟩

/-- C6 at a concrete input: the clone of a `Happy` holding 3 at address 0, and the object made
by `make("Happy", 3)`. -/
theorem clone_same_type_and_state_witness :
    [Thought.Happy ⟨3⟩][0]? = some (Thought.Happy ⟨3⟩) ∧
    (∃ q : address,
      Thought.clone 0 [Thought.Happy ⟨3⟩] =
        (outcome.returns (some q), [Thought.Happy ⟨3⟩, Thought.Happy ⟨3⟩]) ∧ q ≠ 0) ∧
    program_demangler "5Happy" = some "Happy" ∧
    basic_poly_factory.make Thought.program "Happy" 3
        ⟨[], static_init program_demangler [Happy.derived]⟩ =
      (outcome.returns (some 0),
        ⟨[Thought.Happy ⟨3⟩], static_init program_demangler [Happy.derived]⟩) := by
  refine ⟨rfl, ?_, rfl, ((clone_same_type_and_state 3).2 program_demangler [] rfl).1⟩
  obtain ⟨q, h1, h2, _⟩ := (clone_same_type_and_state 3).1 [Thought.Happy ⟨3⟩] 0 rfl
  exact ⟨q, h1, h2⟩

/-- C7, amended, at a concrete input: the registry holding the factories of `Dog` and `Cat`,
whose constructors always return. -/
theorem I1_of_yielding_factories_witness :
    (∀ e ∈ [("Dog", function_ptr_factory.create Dog.derived),
            ("Cat", function_ptr_factory.create Cat.derived)],
      yields_instance (Animal.program client_functions) e.2) ∧
    (add_all [("Dog", function_ptr_factory.create Dog.derived),
              ("Cat", function_ptr_factory.create Cat.derived)]
      simple_storage.initial).find "Cat" = some (function_ptr_factory.create Cat.derived) ∧
    yields_instance (Animal.program client_functions)
      (function_ptr_factory.create Cat.derived) :=
  have hl : ∀ e ∈ [("Dog", function_ptr_factory.create Dog.derived),
      ("Cat", function_ptr_factory.create Cat.derived)],
      yields_instance (Animal.program client_functions) e.2 := by
    intro e he
    simp only [List.mem_cons, List.mem_singleton, List.not_mem_nil, or_false] at he
    rcases he with rfl | rfl
    · intro args w
      refine ⟨w.heap.length, Animal.Dog ⟨args⟩, rfl, ?_⟩
      show (w.heap ++ [Animal.Dog ⟨args⟩])[w.heap.length]? = _
      simp
    · intro args w
      refine ⟨w.heap.length, Animal.Cat ⟨args⟩, rfl, ?_⟩
      show (w.heap ++ [Animal.Cat ⟨args⟩])[w.heap.length]? = _
      simp
  ⟨hl, by decide, I1_of_yielding_factories (Animal.program client_functions) _ hl "Cat" _
    (by decide)⟩

/-- C8, amended, at a concrete input: `Dog` and `Cat` inserted in the two possible orders. -/
theorem insertion_order_irrelevant_witness :
    List.Perm [("Dog", function_ptr_factory.create Dog.derived),
               ("Cat", function_ptr_factory.create Cat.derived)]
              [("Cat", function_ptr_factory.create Cat.derived),
               ("Dog", function_ptr_factory.create Dog.derived)] ∧
    (∀ e ∈ [("Dog", function_ptr_factory.create Dog.derived),
            ("Cat", function_ptr_factory.create Cat.derived)],
      ∀ e' ∈ [("Dog", function_ptr_factory.create Dog.derived),
              ("Cat", function_ptr_factory.create Cat.derived)],
      e.1 = e'.1 → e.2 = e'.2) ∧
    (basic_poly_factory.make (Animal.program client_functions) "Dog" 3
      ⟨[], add_all [("Dog", function_ptr_factory.create Dog.derived),
                    ("Cat", function_ptr_factory.create Cat.derived)]
        simple_storage.initial⟩).2.heap =
      (basic_poly_factory.make (Animal.program client_functions) "Dog" 3
        ⟨[], add_all [("Cat", function_ptr_factory.create Cat.derived),
                      ("Dog", function_ptr_factory.create Dog.derived)]
          simple_storage.initial⟩).2.heap :=
  have hf : ∀ e ∈ [("Dog", function_ptr_factory.create Dog.derived),
      ("Cat", function_ptr_factory.create Cat.derived)],
      ∀ e' ∈ [("Dog", function_ptr_factory.create Dog.derived),
        ("Cat", function_ptr_factory.create Cat.derived)],
      e.1 = e'.1 → e.2 = e'.2 := by
    intro e he e' he' hk
    simp only [List.mem_cons, List.mem_singleton, List.not_mem_nil, or_false] at he he'
    rcases he with rfl | rfl <;> rcases he' with rfl | rfl
    · rfl
    · exact absurd hk (by decide)
    · exact absurd hk (by decide)
    · rfl
  ⟨List.Perm.swap _ _ _, hf,
   (insertion_order_irrelevant (Animal.program client_functions) _ _ (List.Perm.swap _ _ _) hf
     simple_storage.initial [] "Dog" 3).2.1⟩

/-- C9, amended, at concrete inputs: with `Dog` registered, a failing `make("Fox", 1)` and a
successful `make("Dog", 3)` both leave the registry as it was. -/
theorem make_leaves_registry_to_factory_witness :
    "Fox" ∉ (static_init program_demangler [Dog.derived]).keys ∧
    (simple_storage.make (Animal.program client_functions) "Fox" 1
      ⟨[], static_init program_demangler [Dog.derived]⟩).2 =
      ⟨[], static_init program_demangler [Dog.derived]⟩ ∧
    (static_init program_demangler [Dog.derived]).find "Dog" =
      some (function_ptr_factory.create Dog.derived) ∧
    (simple_storage.make (Animal.program client_functions) "Dog" 3
      ⟨[], static_init program_demangler [Dog.derived]⟩).2.data =
      static_init program_demangler [Dog.derived] :=
  ⟨by decide,
   (make_leaves_registry_to_factory (Animal.program client_functions) "Fox" 1
     ⟨[], static_init program_demangler [Dog.derived]⟩).1 (by decide),
   by decide,
   (make_leaves_registry_to_factory (Animal.program client_functions) "Dog" 3
     ⟨[], static_init program_demangler [Dog.derived]⟩).2.2.1
     (function_ptr_factory.create Dog.derived) (by decide) rfl⟩

/-- C10 at a concrete input: the entry of `Dog` survives a colliding `add`, two registrations,
a failing `make` and a `make` whose factory calls `add`. -/
theorem entries_never_removed_or_rebound_witness :
    (static_init program_demangler [Dog.derived]).find "Dog" =
      some (function_ptr_factory.create Dog.derived) ∧
    (run_all (Animal.program client_functions) program_demangler
      [operation.add "Dog" (function_ptr_factory.create Cat.derived),
       operation.add "Dog2" ⟨func_type.function 3⟩,
       operation.register_derived Cat.derived, operation.make "Fox" 1,
       operation.make "Dog2" 5, operation.register_derived Dog.derived]
      ⟨[], static_init program_demangler [Dog.derived]⟩).data.find "Dog" =
      some (function_ptr_factory.create Dog.derived) :=
  ⟨by decide, (entries_never_removed_or_rebound (Animal.program client_functions)
    program_demangler ⟨[], static_init program_demangler [Dog.derived]⟩ "Dog"
    (function_ptr_factory.create Dog.derived) _ (by decide)).1⟩

end claims

end PolyFactory
